import Mathlib

/-!
Shallow embedding of the `amplifier_module_hooks_event_broadcast` module
(file `src/amplifier_module_hooks_event_broadcast/__init__.py`).

The module is a pattern-matching event relay.  Its observable behaviour is
captured here as pure functions:

* string helpers mirror the Python primitives used by the source
  (`"*" in e`, `pattern.rstrip("*")`, `event.startswith(p)`), working on the
  character lists underlying `String`;
* `EventBroadcaster.init` mirrors `EventBroadcaster.__init__`: it derives
  `events`, `event_patterns`, `exact_events` and `capability_name` from the
  configuration mapping (modelled as a record of optional fields, one per
  key the code reads with `config.get`);
* `EventBroadcaster._matches_pattern` mirrors the predicate of the same name;
* `EventBroadcaster._broadcast_handler` mirrors the dispatch handler: the
  coordinator capability registry is passed in as an association list, the
  capability delegate is a function that may fail (`Except`), and the
  handler returns the hook result together with the trace of delegate
  invocations (each invocation records the exact pair passed).  The
  sync/async branch of the source calls the delegate with the same pair in
  both arms, so the embedding has a single invocation point;
* `EventBroadcaster.register_handlers` mirrors the two registration loops,
  returning the ordered list of registrations performed, which is also the
  ordered list of retained release handles (the source appends one
  unregister closure per registration);
* `EventBroadcaster.unregister_handlers` mirrors the release loop over
  retained handles, where each handle carries a flag saying whether its
  release operation raises; the result is the ordered trace of release
  invocations together with the cleared retained list.
-/

namespace EventBroadcast

/-- Python substring test `"*" in e` for the one-character needle. -/
def containsStar (s : String) : Bool :=
  s.data.contains (Char.ofNat 42)

/-- Python `pattern.rstrip("*")`: remove every trailing asterisk character. -/
def rstripStar (s : String) : String :=
  String.mk ((s.data.reverse.dropWhile fun c => c == Char.ofNat 42).reverse)

/-- Python `event.startswith(p)`: the characters of `p` lead those of `event`. -/
def strStartsWith (s p : String) : Bool :=
  p.data.isPrefixOf s.data

/-- The module-level `DEFAULT_EVENTS` constant of the source, verbatim. -/
def DEFAULT_EVENTS : List String :=
  [ "content_block:start"
  , "content_block:delta"
  , "content_block:end"
  , "tool:pre"
  , "tool:post"
  , "tool:error"
  , "orchestrator:complete"
  , "prompt:submit"
  , "provider:request"
  , "session:start"
  , "session:end"
  , "error:tool"
  , "error:provider"
  , "error:orchestration"
  , "user:notification" ]

/-- The configuration mapping, restricted to the two keys the source reads:
`config.get("events", DEFAULT_EVENTS)` and
`config.get("capability_name", "broadcast")`.  A `none` field models the key
being absent from the mapping. -/
structure Config where
  events : Option (List String)
  capability_name : Option String

/-- The state built by `EventBroadcaster.__init__` (the coordinator reference
is not part of the state here: the capability registry it provides is passed
to the handler at dispatch time, as the source looks it up at call time). -/
structure EventBroadcaster where
  events : List String
  event_patterns : List String
  exact_events : List String
  capability_name : String

/-- `EventBroadcaster.__init__`: read `events` (default `DEFAULT_EVENTS`),
partition into wildcard patterns and exact names, read `capability_name`
(default `"broadcast"`).  Construction is total: no input raises. -/
def EventBroadcaster.init (config : Config) : EventBroadcaster :=
  let evs := config.events.getD DEFAULT_EVENTS
  { events := evs
    event_patterns := evs.filter fun e => containsStar e
    exact_events := evs.filter fun e => !containsStar e
    capability_name := config.capability_name.getD "broadcast" }

/-- `EventBroadcaster._matches_pattern`: exact membership first, then the
wildcard loop, which strips trailing asterisks from each pattern and tests
the event for that prefix string. -/
def EventBroadcaster._matches_pattern (b : EventBroadcaster) (event : String) : Bool :=
  if b.exact_events.contains event then true
  else if b.event_patterns.any fun pat => strStartsWith event (rstripStar pat) then true
  else false

/-- The hook result value; the source only ever builds
`HookResult(action="continue")`. -/
structure HookResult where
  action : String
deriving DecidableEq

/-- A capability delegate: receives the event name and the payload and either
succeeds or fails (a raised exception or a rejected asynchronous result,
carried as the error message). -/
def CapFn (Data : Type) : Type :=
  String → Data → Except String Unit

/-- The coordinator capability registry, as consulted through
`coordinator.get_capability(name)`: an association list from capability
names to delegates. -/
def Registry (Data : Type) : Type :=
  List (String × CapFn Data)

/-- `coordinator.get_capability`: look the name up in the registry. -/
def getCapability {Data : Type} (reg : Registry Data) (nm : String) :
    Option (CapFn Data) :=
  match reg.find? fun p => p.1 == nm with
  | some p => some p.2
  | none => none

/-- Observable outcome of one `_broadcast_handler` invocation: the returned
hook result and the ordered trace of delegate invocations performed, each
recording the exact `(event, data)` pair passed to the delegate. -/
structure HandlerOut (Data : Type) where
  result : HookResult
  calls : List (String × Data)

/-- Core of `_broadcast_handler` once the capability lookup result is in
hand: skip non-matching events, skip a missing capability, otherwise invoke
the delegate once with `(event, data)`; the try/except block catches any
failure of the delegate, so both the success and the failure arms fall
through to the final `return HookResult(action="continue")`. -/
def handleWithCap {Data : Type} (b : EventBroadcaster) (cap : Option (CapFn Data))
    (event : String) (data : Data) : HandlerOut Data :=
  if !(b._matches_pattern event) then
    { result := { action := "continue" }, calls := [] }
  else
    match cap with
    | none => { result := { action := "continue" }, calls := [] }
    | some broadcast =>
      match broadcast event data with
      | Except.ok _ => { result := { action := "continue" }, calls := [(event, data)] }
      | Except.error _ => { result := { action := "continue" }, calls := [(event, data)] }

/-- `EventBroadcaster._broadcast_handler`: resolve the capability under
`self.capability_name` from the registry at dispatch time, then proceed as
`handleWithCap`. -/
def EventBroadcaster._broadcast_handler {Data : Type} (b : EventBroadcaster)
    (reg : Registry Data) (event : String) (data : Data) : HandlerOut Data :=
  handleWithCap b (getCapability reg b.capability_name) event data

/-- One registration performed through `hooks.register`, recording the
arguments the source passes. -/
structure Registration where
  event : String
  priority : Nat
  name : String
deriving DecidableEq

/-- The registration the source performs for a concrete event name:
priority 1000 and diagnostic name `"event-broadcast:" ++ event`. -/
def mkRegistration (event : String) : Registration :=
  ⟨event, 1000, "event-broadcast:" ++ event⟩

/-- The fixed suffix list of the wildcard expansion loop, in source order. -/
def broadcastSuffixes : List String :=
  ["start", "delta", "end", "pre", "post", "error", "complete"]

/-- First loop of `register_handlers`: one registration per exact event, in
order, each handle appended to the retained list. -/
def registerExactLoop : List String → List Registration
  | [] => []
  | e :: rest => mkRegistration e :: registerExactLoop rest

/-- Inner loop of the wildcard expansion: for one pattern, register
`prefix + suffix` for each of the seven suffixes, where the prefix is the
pattern with trailing asterisks stripped. -/
def registerPatternEvents (pat : String) : List Registration :=
  broadcastSuffixes.map fun suffix => mkRegistration (rstripStar pat ++ suffix)

/-- Second loop of `register_handlers`: the wildcard expansion, pattern by
pattern. -/
def registerPatternLoop : List String → List Registration
  | [] => []
  | pat :: rest => registerPatternEvents pat ++ registerPatternLoop rest

/-- `EventBroadcaster.register_handlers`: the ordered list of registrations
performed, which is also the ordered list of release handles retained in
`self._unregister_funcs` (one handle is appended per registration). -/
def EventBroadcaster.register_handlers (b : EventBroadcaster) : List Registration :=
  registerExactLoop b.exact_events ++ registerPatternLoop b.event_patterns

/-- A retained release handle: the registration it would release, plus
whether invoking its release operation raises. -/
structure Handle where
  reg : Registration
  fails : Bool

/-- Invoking one release handle: it either succeeds or raises. -/
def releaseHandle (h : Handle) : Except String Unit :=
  if h.fails then Except.error "unregister failed" else Except.ok ()

/-- The loop body of `unregister_handlers`: invoke every retained release
operation in order; the try/except around each call catches a raised
failure, so the loop records the invocation and continues either way. -/
def releaseLoop : List Handle → List Registration
  | [] => []
  | h :: rest =>
    match releaseHandle h with
    | Except.ok _ => h.reg :: releaseLoop rest
    | Except.error _ => h.reg :: releaseLoop rest

/-- `EventBroadcaster.unregister_handlers` on a retained-handle list: the
ordered trace of release invocations, together with the retained list after
the final `self._unregister_funcs.clear()`. -/
def EventBroadcaster.unregister_handlers (handles : List Handle) :
    List Registration × List Handle :=
  (releaseLoop handles, [])

/-- The prefix reading of the specification text: the characters of the
pattern before its first asterisk.  Stated from the words of the
specification, to be compared against the `rstripStar` prefix the source
uses. -/
def specTextBeforeFirstStar (s : String) : String :=
  String.mk (s.data.takeWhile fun c => !(c == Char.ofNat 42))

/-! Shared lemmas about the embedding. -/

/-- Characterisation of `_matches_pattern`: the predicate holds exactly when
the event is one of the exact names, or some configured wildcard pattern,
stripped of its trailing asterisks, leads the event. -/
theorem matches_iff (b : EventBroadcaster) (e : String) :
    b._matches_pattern e = true ↔
      e ∈ b.exact_events ∨
        ∃ p ∈ b.event_patterns, strStartsWith e (rstripStar p) = true := by
  unfold EventBroadcaster._matches_pattern
  by_cases hc : e ∈ b.exact_events
  · simp [List.elem_iff.mpr hc, List.contains, hc]
  · have hc' : b.exact_events.contains e = false := by
      simpa [List.contains] using fun h => hc (List.elem_iff.mp h)
    simp [hc', hc, List.any_eq_true]

/-- The first loop of `register_handlers` produces one registration per exact
event name, in order. -/
theorem registerExactLoop_eq_map (es : List String) :
    registerExactLoop es = es.map mkRegistration := by
  induction es with
  | nil => rfl
  | cons e rest ih => simp [registerExactLoop, ih]

/-- The second loop of `register_handlers` produces, per pattern, the seven
suffix registrations, pattern by pattern in order. -/
theorem registerPatternLoop_eq_bind (ps : List String) :
    registerPatternLoop ps = ps.flatMap registerPatternEvents := by
  induction ps with
  | nil => rfl
  | cons p rest ih => simp [registerPatternLoop, ih, List.flatMap]

/-- The wildcard expansion contributes exactly seven registrations per
pattern. -/
theorem registerPatternLoop_length (ps : List String) :
    (registerPatternLoop ps).length = 7 * ps.length := by
  induction ps with
  | nil => rfl
  | cons p rest ih =>
    simp [registerPatternLoop, ih, registerPatternEvents, broadcastSuffixes]
    omega

/-- Every release handle passed to the teardown loop has its release
operation invoked exactly once, in order, whether or not it fails. -/
theorem releaseLoop_eq_map (hs : List Handle) :
    releaseLoop hs = hs.map fun h => h.reg := by
  induction hs with
  | nil => rfl
  | cons h rest ih =>
    cases hfail : h.fails <;>
      simp [releaseLoop, releaseHandle, hfail, ih]

/-- Prepending the empty string leaves a string unchanged. -/
theorem empty_append_str (s : String) : "" ++ s = s := by
  cases s
  rfl

/-! Claim theorems. -/

/-- C4 counterexample: the claim defines the prefix of a wildcard pattern as
the text before its first asterisk. For the configured pattern "a*b", that
prefix is "a" and the event "ab" starts with it, so the claim asserts a
match; the code strips only trailing asterisks, obtaining the prefix "a*b",
and rejects "ab" (which matches no other configured name or pattern). -/
theorem C4_counterexample :
    specTextBeforeFirstStar "a*b" = "a" ∧
    strStartsWith "ab" (specTextBeforeFirstStar "a*b") = true ∧
    "a*b" ∈ (EventBroadcaster.init ⟨some ["a*b"], none⟩).event_patterns ∧
    (EventBroadcaster.init ⟨some ["a*b"], none⟩).exact_events = [] ∧
    (EventBroadcaster.init ⟨some ["a*b"], none⟩)._matches_pattern "ab" = false :=
  ⟨by decide, by decide, by decide, by decide, by decide⟩

/-- C4 (amended): for every configured pattern containing an asterisk, with
the prefix taken as the pattern with its trailing asterisks removed (as the
code computes it), `_matches_pattern x` is true for every `x` starting with
that prefix, and false for every `x` lacking the prefix of each configured
pattern when `x` matches no configured exact name. -/
theorem C4_wildcard_match (cfg : Config) (pat x : String)
    (hpat : pat ∈ (EventBroadcaster.init cfg).event_patterns) :
    (strStartsWith x (rstripStar pat) = true →
      (EventBroadcaster.init cfg)._matches_pattern x = true) ∧
    (x ∉ (EventBroadcaster.init cfg).exact_events →
      (∀ q ∈ (EventBroadcaster.init cfg).event_patterns,
        strStartsWith x (rstripStar q) = false) →
      (EventBroadcaster.init cfg)._matches_pattern x = false) := by
  constructor
  · intro hs
    exact (matches_iff _ x).mpr (Or.inr ⟨pat, hpat, hs⟩)
  · intro hex hall
    rw [← Bool.not_eq_true]
    intro htrue
    rcases (matches_iff _ x).mp htrue with h | ⟨q, hq, hqs⟩
    · exact hex h
    · simp [hall q hq] at hqs

/-- C4 witness: the wildcard configuration ["tool:*"] with its pattern and
the event "tool:pre". -/
theorem C4_wildcard_match_witness :
    "tool:*" ∈ (EventBroadcaster.init ⟨some ["tool:*"], none⟩).event_patterns ∧
    ((strStartsWith "tool:pre" (rstripStar "tool:*") = true →
      (EventBroadcaster.init ⟨some ["tool:*"], none⟩)._matches_pattern "tool:pre" = true) ∧
    ("tool:pre" ∉ (EventBroadcaster.init ⟨some ["tool:*"], none⟩).exact_events →
      (∀ q ∈ (EventBroadcaster.init ⟨some ["tool:*"], none⟩).event_patterns,
        strStartsWith "tool:pre" (rstripStar q) = false) →
      (EventBroadcaster.init ⟨some ["tool:*"], none⟩)._matches_pattern "tool:pre" = false)) :=
  ⟨by decide, C4_wildcard_match ⟨some ["tool:*"], none⟩ "tool:*" "tool:pre" (by decide)⟩

/-- C5 counterexample: the claim asserts, for every configuration, that
`_matches_pattern e` holds exactly when `e` is a configured exact name; with
the configuration ["tool:*"] the exact-name set is empty, yet "tool:x"
matches through the wildcard pattern. -/
theorem C5_counterexample :
    (EventBroadcaster.init ⟨some ["tool:*"], none⟩)._matches_pattern "tool:x" = true ∧
    (EventBroadcaster.init ⟨some ["tool:*"], none⟩).exact_events = [] ∧
    "tool:x" ∉ (EventBroadcaster.init ⟨some ["tool:*"], none⟩).exact_events :=
  ⟨by decide, by decide, by decide⟩

/-- C5 (amended): for every configuration whose events contain no wildcard
pattern (the derived pattern list is empty), `_matches_pattern e` is true
exactly when `e` is one of the configured exact names. -/
theorem C5_exact_iff_mem (cfg : Config) (e : String)
    (hnp : (EventBroadcaster.init cfg).event_patterns = []) :
    ((EventBroadcaster.init cfg)._matches_pattern e = true ↔
      e ∈ (EventBroadcaster.init cfg).exact_events) := by
  rw [matches_iff]
  constructor
  · rintro (h | ⟨q, hq, _⟩)
    · exact h
    · rw [hnp] at hq
      cases hq
  · exact Or.inl

/-- C5 witness: the wildcard-free configuration ["tool:pre"] and the event
"tool:pre". -/
theorem C5_exact_iff_mem_witness :
    (EventBroadcaster.init ⟨some ["tool:pre"], none⟩).event_patterns = [] ∧
    ((EventBroadcaster.init ⟨some ["tool:pre"], none⟩)._matches_pattern "tool:pre" = true ↔
      "tool:pre" ∈ (EventBroadcaster.init ⟨some ["tool:pre"], none⟩).exact_events) :=
  ⟨by decide, C5_exact_iff_mem ⟨some ["tool:pre"], none⟩ "tool:pre" (by decide)⟩

/-- C1: for every event matching the configuration and every payload, with a
capability registered under the configured capability name, the handler
invokes that capability exactly once with the pair unchanged and returns the
continue result. -/
theorem C1_broadcast_invokes_once (Data : Type) (b : EventBroadcaster)
    (reg : Registry Data) (f : CapFn Data) (event : String) (data : Data)
    (hmatch : b._matches_pattern event = true)
    (hcap : getCapability reg b.capability_name = some f) :
    b._broadcast_handler reg event data
      = ⟨⟨"continue"⟩, [(event, data)]⟩ := by
  unfold EventBroadcaster._broadcast_handler handleWithCap
  rw [hcap, hmatch]
  cases hfd : f event data <;> simp [hfd]

/-- C1 witness: configuration ["tool:pre"], a succeeding capability under
"broadcast", the event "tool:pre" with payload 0. -/
theorem C1_broadcast_invokes_once_witness :
    (EventBroadcaster.init ⟨some ["tool:pre"], none⟩)._matches_pattern "tool:pre" = true ∧
    @getCapability Nat [("broadcast", fun _ _ => Except.ok ())]
        (EventBroadcaster.init ⟨some ["tool:pre"], none⟩).capability_name
      = some (fun _ _ => Except.ok ()) ∧
    (EventBroadcaster.init ⟨some ["tool:pre"], none⟩)._broadcast_handler
        [("broadcast", fun _ _ => Except.ok ())] "tool:pre" (0 : Nat)
      = ⟨⟨"continue"⟩, [("tool:pre", 0)]⟩ :=
  ⟨by decide, rfl,
    C1_broadcast_invokes_once Nat (EventBroadcaster.init ⟨some ["tool:pre"], none⟩)
      [("broadcast", fun _ _ => Except.ok ())] (fun _ _ => Except.ok ())
      "tool:pre" 0 (by decide) rfl⟩

/-- C2: for every matching event and payload, if the registered capability
fails (raises, or its asynchronous result rejects), the handler catches the
failure, does not propagate it (the invocation still produces an ordinary
outcome recording the single delegate call), and returns continue. -/
theorem C2_broadcast_catches_failure (Data : Type) (b : EventBroadcaster)
    (reg : Registry Data) (f : CapFn Data) (event : String) (data : Data)
    (msg : String)
    (hmatch : b._matches_pattern event = true)
    (hcap : getCapability reg b.capability_name = some f)
    (hfail : f event data = Except.error msg) :
    b._broadcast_handler reg event data
      = ⟨⟨"continue"⟩, [(event, data)]⟩ := by
  unfold EventBroadcaster._broadcast_handler handleWithCap
  rw [hcap, hmatch]
  simp [hfail]

/-- C2 witness: configuration ["tool:pre"], a capability under "broadcast"
that always fails, the event "tool:pre" with payload 0. -/
theorem C2_broadcast_catches_failure_witness :
    (EventBroadcaster.init ⟨some ["tool:pre"], none⟩)._matches_pattern "tool:pre" = true ∧
    @getCapability Nat [("broadcast", fun _ _ => Except.error "boom")]
        (EventBroadcaster.init ⟨some ["tool:pre"], none⟩).capability_name
      = some (fun _ _ => Except.error "boom") ∧
    (fun (_ : String) (_ : Nat) => (Except.error "boom" : Except String Unit))
        "tool:pre" 0 = Except.error "boom" ∧
    (EventBroadcaster.init ⟨some ["tool:pre"], none⟩)._broadcast_handler
        [("broadcast", fun _ _ => Except.error "boom")] "tool:pre" (0 : Nat)
      = ⟨⟨"continue"⟩, [("tool:pre", 0)]⟩ :=
  ⟨by decide, rfl, rfl,
    C2_broadcast_catches_failure Nat (EventBroadcaster.init ⟨some ["tool:pre"], none⟩)
      [("broadcast", fun _ _ => Except.error "boom")] (fun _ _ => Except.error "boom")
      "tool:pre" 0 "boom" (by decide) rfl rfl⟩

/-- C3: for every event name and payload, when no capability is registered
under the configured capability name, the handler returns continue and
invokes no delegate. -/
theorem C3_no_capability_noop (Data : Type) (b : EventBroadcaster)
    (reg : Registry Data) (event : String) (data : Data)
    (hnone : getCapability reg b.capability_name = none) :
    b._broadcast_handler reg event data = ⟨⟨"continue"⟩, []⟩ := by
  unfold EventBroadcaster._broadcast_handler handleWithCap
  rw [hnone]
  cases hm : b._matches_pattern event <;> simp [hm]

/-- C3 witness: the default configuration, an empty capability registry, the
event "tool:pre" with payload 0. -/
theorem C3_no_capability_noop_witness :
    @getCapability Nat [] (EventBroadcaster.init ⟨none, none⟩).capability_name = none ∧
    (EventBroadcaster.init ⟨none, none⟩)._broadcast_handler ([] : Registry Nat)
        "tool:pre" (0 : Nat)
      = ⟨⟨"continue"⟩, []⟩ :=
  ⟨rfl,
    C3_no_capability_noop Nat (EventBroadcaster.init ⟨none, none⟩) [] "tool:pre" 0 rfl⟩

/-- C6: for every configuration, start performs exactly one registration per
exact event name followed by exactly seven per wildcard pattern, one for
each of prefix-plus-suffix with the suffixes in source order, every
registration at priority 1000 with diagnostic name
`"event-broadcast:" ++ event`, and the retained-handle list is that ordered
list, of length number-of-exact-events plus seven times
number-of-patterns. -/
theorem C6_register_handlers_spec (cfg : Config) :
    (EventBroadcaster.init cfg).register_handlers
        = (EventBroadcaster.init cfg).exact_events.map mkRegistration
          ++ (EventBroadcaster.init cfg).event_patterns.flatMap
              (fun pat => broadcastSuffixes.map fun suffix =>
                mkRegistration (rstripStar pat ++ suffix)) ∧
    (EventBroadcaster.init cfg).register_handlers.length
        = (EventBroadcaster.init cfg).exact_events.length
          + 7 * (EventBroadcaster.init cfg).event_patterns.length ∧
    ∀ r ∈ (EventBroadcaster.init cfg).register_handlers,
      r.priority = 1000 ∧ r.name = "event-broadcast:" ++ r.event := by
  refine ⟨?_, ?_, ?_⟩
  · unfold EventBroadcaster.register_handlers
    rw [registerExactLoop_eq_map, registerPatternLoop_eq_bind]
    rfl
  · unfold EventBroadcaster.register_handlers
    rw [List.length_append, registerExactLoop_eq_map, List.length_map,
      registerPatternLoop_length]
  · intro r hr
    unfold EventBroadcaster.register_handlers at hr
    rw [registerExactLoop_eq_map, registerPatternLoop_eq_bind,
      List.mem_append] at hr
    rcases hr with hr | hr
    · rcases List.mem_map.mp hr with ⟨e, _, rfl⟩
      exact ⟨rfl, rfl⟩
    · rcases List.mem_flatMap.mp hr with ⟨p, _, hp⟩
      unfold registerPatternEvents at hp
      rcases List.mem_map.mp hp with ⟨s, _, rfl⟩
      exact ⟨rfl, rfl⟩

/-- C6 witness: the configuration with one exact name and one wildcard
pattern, checked on the membership hypothesis of the final conjunct. -/
theorem C6_register_handlers_spec_witness :
    mkRegistration "session:start"
        ∈ (EventBroadcaster.init ⟨some ["session:start", "tool:*"], none⟩).register_handlers ∧
    ((mkRegistration "session:start").priority = 1000 ∧
      (mkRegistration "session:start").name
        = "event-broadcast:" ++ (mkRegistration "session:start").event) :=
  ⟨by decide,
    (C6_register_handlers_spec ⟨some ["session:start", "tool:*"], none⟩).2.2
      (mkRegistration "session:start") (by decide)⟩

/-- C7: stop invokes the release operation of every retained handle exactly
once each, in order, a failing release neither propagates nor prevents the
remaining releases (the trace covers every handle whatever the failure
flags), afterwards the retained list is empty, and stop on the empty list is
a no-op. -/
theorem C7_unregister_handlers_spec (handles : List Handle) :
    (EventBroadcaster.unregister_handlers handles).1
        = handles.map (fun h => h.reg) ∧
    (EventBroadcaster.unregister_handlers handles).2 = [] ∧
    EventBroadcaster.unregister_handlers [] = ([], []) :=
  ⟨releaseLoop_eq_map handles, rfl, rfl⟩

/-- C8: the capability slot consulted by the dispatch handler is the value of
the configuration key capability underscore name when present, and
"broadcast" when absent; the handler resolves exactly that slot from the
registry at dispatch time. -/
theorem C8_capability_slot (cfg : Config) :
    ((EventBroadcaster.init cfg).capability_name
      = match cfg.capability_name with
        | some v => v
        | none => "broadcast") ∧
    ∀ (Data : Type) (reg : Registry Data) (event : String) (data : Data),
      (EventBroadcaster.init cfg)._broadcast_handler reg event data
        = handleWithCap (EventBroadcaster.init cfg)
            (getCapability reg
              (match cfg.capability_name with
                | some v => v
                | none => "broadcast")) event data := by
  obtain ⟨evs, capn⟩ := cfg
  cases capn <;> exact ⟨rfl, fun _ _ _ _ => rfl⟩

/-- C9: with the configured events set to the empty list, construction
succeeds (the embedding of construction is total), start performs zero
registrations, and no event name matches: the module is a no-op. -/
theorem C9_empty_events_noop (cfg : Config) (h : cfg.events = some []) :
    (EventBroadcaster.init cfg).exact_events = [] ∧
    (EventBroadcaster.init cfg).event_patterns = [] ∧
    (EventBroadcaster.init cfg).register_handlers = [] ∧
    ∀ e, (EventBroadcaster.init cfg)._matches_pattern e = false := by
  obtain ⟨evs, capn⟩ := cfg
  replace h : evs = some [] := h
  subst h
  exact ⟨rfl, rfl, rfl, fun _ => rfl⟩

/-- C9 witness: the configuration with an explicitly empty event list. -/
theorem C9_empty_events_noop_witness :
    (⟨some [], none⟩ : Config).events = some [] ∧
    (EventBroadcaster.init ⟨some [], none⟩).register_handlers = [] ∧
    (EventBroadcaster.init ⟨some [], none⟩)._matches_pattern "tool:pre" = false :=
  ⟨rfl, (C9_empty_events_noop ⟨some [], none⟩ rfl).2.2.1,
    (C9_empty_events_noop ⟨some [], none⟩ rfl).2.2.2 "tool:pre"⟩

/-- C10: a configured pattern consisting only of asterisks strips to the
empty prefix, so every event name matches, while the wildcard expansion for
that pattern registers exactly the seven bare suffix names. -/
theorem C10_all_star_pattern (cfg : Config) (pat : String)
    (hmem : pat ∈ (EventBroadcaster.init cfg).event_patterns)
    (hstar : ∀ c ∈ pat.data, c = Char.ofNat 42) :
    rstripStar pat = "" ∧
    (∀ e, (EventBroadcaster.init cfg)._matches_pattern e = true) ∧
    registerPatternEvents pat = broadcastSuffixes.map mkRegistration := by
  have hrs : rstripStar pat = "" := by
    unfold rstripStar
    have hnil : pat.data.reverse.dropWhile (fun c => c == Char.ofNat 42) = [] :=
      List.dropWhile_eq_nil_iff.mpr fun x hx => by
        have hx42 := hstar x (List.mem_reverse.mp hx)
        simp [hx42]
    rw [hnil]
    rfl
  refine ⟨hrs, ?_, ?_⟩
  · intro e
    refine (matches_iff _ e).mpr (Or.inr ⟨pat, hmem, ?_⟩)
    rw [hrs]
    unfold strStartsWith
    have hd : ("" : String).data = [] := rfl
    rw [hd]
    simp [List.isPrefixOf]
  · unfold registerPatternEvents
    rw [hrs]
    simp [empty_append_str]

/-- C10 witness: the configuration whose only event entry is the bare
asterisk pattern. -/
theorem C10_all_star_pattern_witness :
    "*" ∈ (EventBroadcaster.init ⟨some ["*"], none⟩).event_patterns ∧
    (∀ c ∈ ("*" : String).data, c = Char.ofNat 42) ∧
    rstripStar "*" = "" ∧
    (EventBroadcaster.init ⟨some ["*"], none⟩)._matches_pattern "anything:odd" = true ∧
    registerPatternEvents "*" = broadcastSuffixes.map mkRegistration :=
  ⟨by decide, by decide,
    (C10_all_star_pattern ⟨some ["*"], none⟩ "*" (by decide) (by decide)).1,
    (C10_all_star_pattern ⟨some ["*"], none⟩ "*" (by decide) (by decide)).2.1 "anything:odd",
    (C10_all_star_pattern ⟨some ["*"], none⟩ "*" (by decide) (by decide)).2.2⟩

end EventBroadcast
